import Mathlib

/- Verification of the euchre card-game engine (core action pipeline, phase
state machine, trick and hand scoring) against its specification.  The Python
sources are shallowly embedded: methods become Lean functions, mutation becomes
explicit state passing, and runtime exceptions (AttributeError, IndexError,
TypeError, ValueError, KeyError) are modelled with Except. -/

/-- Runtime exceptions raised by the embedded Python code. -/
inductive PyError where
  | attributeError (name : String)
  | indexError
  | typeError (msg : String)
  | valueError (msg : String)
  | keyError (key : String)
deriving DecidableEq

/-- Card (core/state.py): rank and suit strings; value equality by (rank, suit),
which is what the Python dunder eq implements. -/
structure Card where
  rank : String
  suit : String
deriving DecidableEq

/-- Deck.RANKS (core/state.py line 18): the base deck has thirteen ranks. -/
def Deck_RANKS : List String :=
  ["2", "3", "4", "5", "6", "7", "8", "9", "10", "J", "Q", "K", "A"]

/-- Deck.SUITS (core/state.py line 19). -/
def Deck_SUITS : List String := ["Hearts", "Diamonds", "Clubs", "Spades"]

/-- EuchreDeck.RANKS (euchre/setup.py line 22): nine through ace. -/
def EuchreDeck_RANKS : List String := ["9", "10", "J", "Q", "K", "A"]

/-- Card-building loop shared by Deck.collect and EuchreDeck.collect: outer
loop over suits, inner loop over ranks, appending Card(rank, suit). -/
def collectCards (ranks suits : List String) : List Card :=
  (suits.map (fun s => ranks.map (fun r => ({ rank := r, suit := s } : Card)))).flatten

/-- Deck.collect (core/state.py lines 24-30): despite its docstring promising
24 cards, it crosses the thirteen base ranks with the four suits. -/
def Deck_collect : List Card := collectCards Deck_RANKS Deck_SUITS

/-- Attribute names resolvable on an EuchreDeck instance (instance attribute
cards plus the class attributes of EuchreDeck and Deck).  The class Card is a
module-level name in core/state.py, not an attribute of Deck or EuchreDeck. -/
def euchreDeckAttrNames : List String :=
  ["cards", "RANKS", "SUITS", "collect", "shuffle", "deal", "peek"]

/-- Python attribute lookup against a fixed attribute table: a missing name
raises AttributeError. -/
def lookupAttr (attrs : List String) (name : String) : Except PyError Unit :=
  if attrs.contains name then Except.ok () else Except.error (PyError.attributeError name)

/-- EuchreDeck.collect (euchre/setup.py lines 27-33): the body builds cards via
self.Card(rank, suit); the lookup of the attribute Card on self raises
AttributeError, so the method never returns.  The continuation records what the
loop would build had the name resolved to the Card class. -/
def EuchreDeck_collect : Except PyError (List Card) := do
  let _ ← lookupAttr euchreDeckAttrNames "Card"
  pure (collectCards EuchreDeck_RANKS Deck_SUITS)

/-- C9: the claim (a fresh Deck, or any Deck after reset-to-full, holds exactly
the 24 unique euchre cards) is right as a statement of intent but the code
breaks it twice: Deck.collect builds 52 cards (13 ranks by 4 suits), and
EuchreDeck.collect, which would build the 24, raises AttributeError on
self.Card, so constructing an EuchreDeck raises instead of producing a deck.
The intended cross product (Card applied to the euchre ranks and suits) does
have exactly 24 distinct (rank, suit) cards. -/
theorem c9_deck_collect_code_bug :
    Deck_collect.length = 52 ∧
    Deck_collect.length ≠ 24 ∧
    EuchreDeck_collect = Except.error (PyError.attributeError "Card") ∧
    (collectCards EuchreDeck_RANKS Deck_SUITS).length = 24 ∧
    (collectCards EuchreDeck_RANKS Deck_SUITS).Nodup := by
  exact ⟨by decide, by decide, rfl, by decide, by decide⟩

/-- Phase (euchre/setup.py lines 8-18). -/
inductive Phase where
  | SETUP | DEAL | PICKUP_CARD | PICK_SUIT | DISCARD | PLAY
  | SCORE_TRICK | SCORE_GAME | END_GAME
deriving DecidableEq

/-- Player (core/state.py lines 58-78): id and hand.  The field team_id is
Modelled from the spec: the spec data model gives every Player a team_id in
set 1, 2 derived from seating parity; no code under src ever assigns the
attribute (the executors only read it), so it is carried here as a field.
Python compares Player objects by identity; players of one game are distinct
shared objects with unique ids, so identity is modelled as id equality. -/
structure Player where
  id : String
  team_id : Nat
  hand : List Card
deriving DecidableEq

/-- EuchreGame (euchre/setup.py lines 35-47).  The dicts score and hand_score
keyed by 1 and 2 are carried as two fields each; current_dealer and
current_player are Player references, modelled by their unique ids. -/
structure EGame where
  phase : Phase
  players : List Player
  score1 : Nat
  score2 : Nat
  hand_score1 : Nat
  hand_score2 : Nat
  calling_team : Option Nat
  renegs : List (Nat × String)
  current_dealer : String
  current_player : String
  blocking_on_discard : List Player
  trump_suit : Option String
deriving DecidableEq

/-- Dict read hand_score[t] for the team-keyed dict with keys 1 and 2: any
other key raises KeyError. -/
def hand_score_get (g : EGame) (t : Nat) : Except PyError Nat :=
  if t = 1 then Except.ok g.hand_score1
  else if t = 2 then Except.ok g.hand_score2
  else Except.error (PyError.keyError "team")

/-- Dict update hand_score[t] += n, KeyError outside keys 1 and 2. -/
def hand_score_add (g : EGame) (t : Nat) (n : Nat) : Except PyError EGame :=
  if t = 1 then Except.ok { g with hand_score1 := g.hand_score1 + n }
  else if t = 2 then Except.ok { g with hand_score2 := g.hand_score2 + n }
  else Except.error (PyError.keyError "team")

/-- Spec-side accessor: the hand score of team t (t in 1, 2). -/
def teamHandScore (g : EGame) (t : Nat) : Nat :=
  if t = 1 then g.hand_score1 else g.hand_score2

/-- Spec-side accessor: the game score of team t (t in 1, 2). -/
def teamScore (g : EGame) (t : Nat) : Nat :=
  if t = 1 then g.score1 else g.score2

/-- Kinds of follow-up executors an ActionResult can carry (the source stores
ActionExecutor instances in follow_up_actions; the claims only inspect which
executors are enqueued, so the kind suffices). -/
inductive FollowUpKind where
  | broadcast | scoreHand | scoreTrick | notifyCurrentPlayer
  | clearBoard | advanceDealer | deal
deriving DecidableEq

/-- ActionResult (core/logic.py lines 12-17). -/
structure ActionResult where
  success : Bool
  message : String
  follow_up_actions : List FollowUpKind
deriving DecidableEq

/-- Python inequality winner != game.calling_team with winner an int and
calling_team an Optional int: an int is never equal to None. -/
def pyNeIntOpt (w : Nat) (ct : Option Nat) : Bool :=
  match ct with
  | none => true
  | some c => c != w

/-- Winner as ScoreHand.execute computes it: team 1 exactly when team 1 has
the strictly higher hand score, team 2 otherwise (ties go to team 2). -/
def handWinner (g : EGame) : Nat :=
  if g.hand_score1 > g.hand_score2 then 1 else 2

/-- ScoreHand.execute (euchre/executors.py lines 214-235): pick the winner,
award 2 points on a march (winning hand score at least 5) or a euchre (winner
differs from calling_team), else 1; add to score[winner]; then either end the
game at 10 points or reset the hand scores and re-deal. -/
def ScoreHand_execute (g : EGame) : EGame × ActionResult :=
  let winning_score := max g.hand_score1 g.hand_score2
  let winner := handWinner g
  let points : Nat :=
    if 5 ≤ winning_score ∨ pyNeIntOpt winner g.calling_team then 2 else 1
  let g1 :=
    if winner = 1 then { g with score1 := g.score1 + points }
    else { g with score2 := g.score2 + points }
  if 10 ≤ teamScore g1 winner then
    ({ g1 with phase := Phase.END_GAME },
      { success := true, message := "Team wins the game", follow_up_actions := [FollowUpKind.broadcast] })
  else
    ({ g1 with phase := Phase.DEAL, hand_score1 := 0, hand_score2 := 0 },
      { success := true, message := "Team wins the hand",
        follow_up_actions := [FollowUpKind.broadcast, FollowUpKind.clearBoard, FollowUpKind.advanceDealer, FollowUpKind.deal] })

/-- Points awarded by ScoreHand.execute: 2 on a march or a euchre, else 1. -/
def scoreHandPoints (g : EGame) : Nat :=
  if 5 ≤ max g.hand_score1 g.hand_score2 ∨ pyNeIntOpt (handWinner g) g.calling_team then 2 else 1

/-- Field-level description of the score mutation of ScoreHand.execute. -/
theorem ScoreHand_execute_scores (g : EGame) :
    (ScoreHand_execute g).1.score1 = (if handWinner g = 1 then g.score1 + scoreHandPoints g else g.score1) ∧
    (ScoreHand_execute g).1.score2 = (if handWinner g = 1 then g.score2 else g.score2 + scoreHandPoints g) := by
  simp only [ScoreHand_execute, scoreHandPoints]
  split_ifs <;> simp_all

/-- C2: with unequal team hand scores and a calling team on record, hand
scoring picks the team with the strictly higher hand score as winner, awards
2 points when the winner has hand score at least 5 or is not the calling team
and 1 point otherwise, adds exactly that to the winner score and leaves the
other team score unchanged; in particular a winner different from the calling
team is always awarded 2. -/
theorem c2_score_hand_award (g : EGame) (ct : Nat)
    (hct : g.calling_team = some ct) (hne : g.hand_score1 ≠ g.hand_score2) :
    (∀ t, (t = 1 ∨ t = 2) → t ≠ handWinner g →
      teamHandScore g t < teamHandScore g (handWinner g)) ∧
    teamScore (ScoreHand_execute g).1 (handWinner g) =
      teamScore g (handWinner g) +
        (if 5 ≤ teamHandScore g (handWinner g) ∨ handWinner g ≠ ct then 2 else 1) ∧
    (∀ t, (t = 1 ∨ t = 2) → t ≠ handWinner g →
      teamScore (ScoreHand_execute g).1 t = teamScore g t) ∧
    (handWinner g ≠ ct →
      teamScore (ScoreHand_execute g).1 (handWinner g) = teamScore g (handWinner g) + 2) := by
  obtain ⟨hsc1, hsc2⟩ := ScoreHand_execute_scores g
  rcases Nat.lt_or_ge g.hand_score2 g.hand_score1 with h | h
  · have hw : handWinner g = 1 := by simp [handWinner, h]
    have hmax : max g.hand_score1 g.hand_score2 = g.hand_score1 := Nat.max_eq_left h.le
    have hpts : scoreHandPoints g = if 5 ≤ teamHandScore g 1 ∨ (1 : Nat) ≠ ct then 2 else 1 := by
      have hiff : (5 ≤ max g.hand_score1 g.hand_score2 ∨
          pyNeIntOpt (handWinner g) g.calling_team = true) ↔
          (5 ≤ teamHandScore g 1 ∨ (1 : Nat) ≠ ct) := by
        rw [hmax, hw, hct]
        simp only [pyNeIntOpt, teamHandScore, bne_iff_ne, if_pos rfl]
        constructor <;> (rintro (hh | hh))
        exacts [Or.inl hh, Or.inr (Ne.symm hh), Or.inl hh, Or.inr (Ne.symm hh)]
      simp only [scoreHandPoints]
      exact if_congr hiff rfl rfl
    rw [hw] at hsc1 hsc2
    simp only [if_pos rfl] at hsc1 hsc2
    refine ⟨?_, ?_, ?_, ?_⟩
    · intro t ht hne1
      rcases ht with rfl | rfl
      · exact absurd hw.symm hne1
      · rw [hw]; simpa [teamHandScore] using h
    · rw [hw]; simpa [teamScore, hsc1] using hpts
    · intro t ht hne1
      rcases ht with rfl | rfl
      · exact absurd hw.symm hne1
      · simp [teamScore, hsc2]
    · intro hnect
      rw [hw] at hnect ⊢
      have : (if 5 ≤ teamHandScore g 1 ∨ (1 : Nat) ≠ ct then 2 else 1) = 2 :=
        if_pos (Or.inr hnect)
      simp [teamScore, hsc1, hpts, this]
  · have hlt : g.hand_score1 < g.hand_score2 := by omega
    have hw : handWinner g = 2 := by simp [handWinner]; omega
    have hw1 : handWinner g ≠ 1 := by rw [hw]; decide
    have hmax : max g.hand_score1 g.hand_score2 = g.hand_score2 := Nat.max_eq_right h
    have hpts : scoreHandPoints g = if 5 ≤ teamHandScore g 2 ∨ (2 : Nat) ≠ ct then 2 else 1 := by
      have hiff : (5 ≤ max g.hand_score1 g.hand_score2 ∨
          pyNeIntOpt (handWinner g) g.calling_team = true) ↔
          (5 ≤ teamHandScore g 2 ∨ (2 : Nat) ≠ ct) := by
        rw [hmax, hw, hct]
        simp only [pyNeIntOpt, teamHandScore, bne_iff_ne]
        norm_num
        constructor <;> (rintro (hh | hh))
        exacts [Or.inl hh, Or.inr (Ne.symm hh), Or.inl hh, Or.inr (Ne.symm hh)]
      simp only [scoreHandPoints]
      exact if_congr hiff rfl rfl
    rw [if_neg hw1] at hsc1 hsc2
    refine ⟨?_, ?_, ?_, ?_⟩
    · intro t ht hne1
      rcases ht with rfl | rfl
      · rw [hw]; simpa [teamHandScore] using hlt
      · exact absurd hw.symm hne1
    · rw [hw]; simpa [teamScore, hsc2] using hpts
    · intro t ht hne1
      rcases ht with rfl | rfl
      · simp [teamScore, hsc1]
      · exact absurd hw.symm hne1
    · intro hnect
      rw [hw] at hnect ⊢
      have : (if 5 ≤ teamHandScore g 2 ∨ (2 : Nat) ≠ ct then 2 else 1) = 2 :=
        if_pos (Or.inr hnect)
      simp [teamScore, hsc2, hpts, this]

/-- Concrete game for the C2 witness: calling team 1, hand scores 2 and 3. -/
def c2Game : EGame :=
  { phase := Phase.SCORE_GAME, players := [], score1 := 4, score2 := 6,
    hand_score1 := 2, hand_score2 := 3, calling_team := some 1, renegs := [],
    current_dealer := "a", current_player := "a", blocking_on_discard := [],
    trump_suit := some "Spades" }

/-- Witness for C2 at the euchre example from the spec: calling team 1, hand
scores 2 to 3, so team 2 wins and is awarded 2 points despite the margin. -/
theorem c2_score_hand_award_witness :
    (∀ t, (t = 1 ∨ t = 2) → t ≠ handWinner c2Game →
      teamHandScore c2Game t < teamHandScore c2Game (handWinner c2Game)) ∧
    teamScore (ScoreHand_execute c2Game).1 (handWinner c2Game) =
      teamScore c2Game (handWinner c2Game) +
        (if 5 ≤ teamHandScore c2Game (handWinner c2Game) ∨ handWinner c2Game ≠ 1 then 2 else 1) ∧
    (∀ t, (t = 1 ∨ t = 2) → t ≠ handWinner c2Game →
      teamScore (ScoreHand_execute c2Game).1 t = teamScore c2Game t) ∧
    (handWinner c2Game ≠ 1 →
      teamScore (ScoreHand_execute c2Game).1 (handWinner c2Game) = teamScore c2Game (handWinner c2Game) + 2) :=
  c2_score_hand_award c2Game 1 (by decide) (by decide)

/-- Validator loop of ActionRule.process (core/logic.py lines 92-95),
instrumented with the number of validator calls actually made: the loop stops
at the first validator returning false.  The pair is (all-passed?, calls). -/
def runValidatorsInstr {α : Type} (vs : List (α → Bool)) (x : α) : Bool × Nat :=
  match vs with
  | [] => (true, 0)
  | v :: rest =>
    if v x then
      let r := runValidatorsInstr rest x
      (r.1, r.2 + 1)
    else (false, 1)

/-- Outcome of ActionRule.process, instrumented for observability: the
returned ActionResult (for the failure path this is the exact generic failure
result; for the success path it is the immediate result of the executor body,
whose follow-up drain is modelled separately), the number of validator calls,
whether the executor body ran, and the final state. -/
structure ProcessOut (σ : Type) where
  result : ActionResult
  validator_calls : Nat
  executor_ran : Bool
  state : σ
deriving DecidableEq

/-- ActionRule.process (core/logic.py lines 79-98): run the validators in
registration order; any failure returns ActionResult(False, "Action validation
failed") without executing; otherwise run_executors starts by executing the
rule executor. -/
def ActionRule_process {σ : Type} (vs : List (σ → Bool)) (ex : σ → σ × ActionResult)
    (s : σ) : ProcessOut σ :=
  let r := runValidatorsInstr vs s
  if r.1 then
    let es := ex s
    { result := es.2, validator_calls := r.2, executor_ran := true, state := es.1 }
  else
    { result := { success := false, message := "Action validation failed", follow_up_actions := [] },
      validator_calls := r.2, executor_ran := false, state := s }

/-- Helper for C8: if every validator passes, the instrumented loop reports
success after evaluating all of them. -/
theorem runValidatorsInstr_all_true {α : Type} (vs : List (α → Bool)) (x : α)
    (h : ∀ v ∈ vs, v x = true) : runValidatorsInstr vs x = (true, vs.length) := by
  induction vs with
  | nil => rfl
  | cons v rest ih =>
    have hv : v x = true := h v (List.mem_cons_self v rest)
    have hrest := ih (fun w hw => h w (List.mem_cons_of_mem v hw))
    simp [runValidatorsInstr, hv, hrest]

/-- Helper for C8: the first failing validator (index i, all earlier ones
passing) stops the loop after i+1 calls with a failure. -/
theorem runValidatorsInstr_first_false {α : Type} (vs : List (α → Bool)) (x : α)
    (i : Nat) (hi : i < vs.length)
    (hbefore : ∀ j, (hj : j < i) → vs.get ⟨j, lt_trans hj hi⟩ x = true)
    (hfalse : vs.get ⟨i, hi⟩ x = false) :
    runValidatorsInstr vs x = (false, i + 1) := by
  induction vs generalizing i with
  | nil => exact absurd hi (Nat.not_lt_zero i)
  | cons v rest ih =>
    cases i with
    | zero =>
      have : v x = false := hfalse
      simp [runValidatorsInstr, this]
    | succ i0 =>
      have hv : v x = true := hbefore 0 (Nat.succ_pos i0)
      have hi0 : i0 < rest.length := Nat.lt_of_succ_lt_succ hi
      have hrest := ih i0 hi0
        (fun j hj => hbefore (j + 1) (Nat.succ_lt_succ hj))
        hfalse
      simp [runValidatorsInstr, hv, hrest]

/-- C8: validators run in registration order and the first one returning
false short-circuits the rest (exactly i+1 validator calls are made when
validator i is the first failure), causing process to return the failed
ActionResult with the generic message "Action validation failed" without
running the executor and without touching the state; when all validators
return true the executor body runs. -/
theorem c8_process_validator_gate {σ : Type} (vs : List (σ → Bool))
    (ex : σ → σ × ActionResult) (s : σ) :
    (∀ i, (hi : i < vs.length) →
      (∀ j, (hj : j < i) → vs.get ⟨j, lt_trans hj hi⟩ s = true) →
      vs.get ⟨i, hi⟩ s = false →
      ActionRule_process vs ex s =
        { result := { success := false, message := "Action validation failed", follow_up_actions := [] },
          validator_calls := i + 1, executor_ran := false, state := s }) ∧
    ((∀ v ∈ vs, v s = true) →
      (ActionRule_process vs ex s).executor_ran = true ∧
      (ActionRule_process vs ex s).validator_calls = vs.length) := by
  constructor
  · intro i hi hbefore hfalse
    have hrun := runValidatorsInstr_first_false vs s i hi hbefore hfalse
    simp [ActionRule_process, hrun]
  · intro hall
    have hrun := runValidatorsInstr_all_true vs s hall
    simp [ActionRule_process, hrun]

/-- Concrete validator list for the C8 witness: the second validator fails. -/
def c8Validators : List (Nat → Bool) :=
  [fun _ => true, fun _ => false, fun _ => true]

/-- Concrete executor for the C8 witness. -/
def c8Executor : Nat → Nat × ActionResult :=
  fun s => (s + 1, { success := true, message := "ran", follow_up_actions := [] })

/-- Witness for C8: with validators pass, fail, pass the pipeline stops after
two validator calls, returns the generic failure and never runs the executor. -/
theorem c8_process_validator_gate_witness :
    ActionRule_process c8Validators c8Executor 0 =
      { result := { success := false, message := "Action validation failed", follow_up_actions := [] },
        validator_calls := 2, executor_ran := false, state := 0 } :=
  (c8_process_validator_gate c8Validators c8Executor 0).1 1 (by decide)
    (fun j hj => by
      have hj0 : j = 0 := by omega
      subst hj0
      rfl)
    rfl

/-- Action (core/logic.py lines 6-10): a dataclass with exactly the fields
name and payload (the payload is carried as a key-value list of strings where
a claim needs it). -/
structure PyAction where
  name : String
  payload : List (String × String)
deriving DecidableEq

/-- String-valued attribute lookup on an Action instance: the dataclass
declares exactly the fields name and payload, so reading any other attribute
(such as action_type, read by is_player_action) raises AttributeError. -/
def Action_getStrAttr (a : PyAction) (attr : String) : Except PyError String :=
  if attr = "name" then Except.ok a.name
  else Except.error (PyError.attributeError attr)

/-- is_player_action (euchre/actions.py lines 4-5): it reads
action.action_type, an attribute Action does not define, and its allow-list
omits "pass" (it holds only play, discard, call_reneg, call_pickup,
call_suit). -/
def is_player_action (a : PyAction) : Except PyError Bool := do
  let t ← Action_getStrAttr a "action_type"
  pure (["play", "discard", "call_reneg", "call_pickup", "call_suit"].contains t)

/-- Action names registered in EuchreActionRouter.rules (euchre/setup.py lines
93-100): there is no rule registered under the name "pass". -/
def euchreRouterRuleNames : List String :=
  ["play", "discard", "call_reneg", "call_pickup", "call_suit", "trick_over"]

/-- ActionRouter.route (core/logic.py lines 109-132) over the
EuchreActionRouter rule table, returning the matched rule name when routing
succeeds.  An unregistered action name raises ValueError; with player_action
set, is_player_action is consulted next (in CPython the bare name
is_player_action is not even imported into core/logic.py, so the call site
raises NameError; granting the import, the attribute read inside it raises
AttributeError — either way routing raises before reaching any rule). -/
def ActionRouter_route (a : PyAction) (player_action : Bool) : Except PyError String :=
  if ¬ euchreRouterRuleNames.contains a.name then
    Except.error (PyError.valueError "No rule found for action")
  else if player_action then
    match is_player_action a with
    | Except.error e => Except.error e
    | Except.ok b =>
      if ¬ b then Except.error (PyError.valueError "Action is not allowed to be executed by a player")
      else Except.ok a.name
  else Except.ok a.name

/-- C6: the claim matches the spec (pass belongs to the allow-list and routes
without raising) but the code contradicts it three ways: no rule is registered
under "pass", so routing a client pass raises ValueError; the allow-list
inside is_player_action omits "pass"; and is_player_action reads the
nonexistent attribute action_type, so even a registered, allowed name such as
"play" raises when routed as a player action. -/
theorem c6_route_pass_code_bug :
    ActionRouter_route { name := "pass", payload := [] } true =
      Except.error (PyError.valueError "No rule found for action") ∧
    (["play", "discard", "call_reneg", "call_pickup", "call_suit"].contains "pass") = false ∧
    ActionRouter_route { name := "play", payload := [] } true =
      Except.error (PyError.attributeError "action_type") := by
  refine ⟨rfl, by decide, rfl⟩

/-- Board slots (core/state.py Board): per-player ordered card lists, keyed by
player id (the face-up flag plays no role in the claims below). -/
abbrev Slots := List (String × List Card)

/-- Dict read board.slots.get(player_id): None when the key is absent. -/
def slotsGet (b : Slots) (pid : String) : Option (List Card) :=
  (b.find? (fun e => e.1 == pid)).map (fun e => e.2)

/-- Slot.add_card: append to the cards of the given slot. -/
def slotsAdd (b : Slots) (pid : String) (c : Card) : Slots :=
  b.map (fun e => if e.1 == pid then (e.1, e.2 ++ [c]) else e)

/-- Game.get_player (core/state.py lines 117-118): first player with the
given id, None when absent. -/
def get_player (g : EGame) (pid : String) : Option Player :=
  g.players.find? (fun p => p.id == pid)

/-- CorrectPhase.validate for a Discard action (euchre/validators.py lines
12-13): the phase must be DISCARD. -/
def CorrectPhase_validate_discard (g : EGame) : Bool :=
  g.phase == Phase.DISCARD

/-- HasCard.validate for a Play or Discard action (euchre/validators.py lines
46-53): look the player up by the payload id and test card membership in the
hand (Card equality is by rank and suit). -/
def HasCard_validate (pid : String) (card : Card) (g : EGame) : Bool :=
  match get_player g pid with
  | some p => p.hand.contains card
  | none => false

/-- Python equality between a raw id and a Player instance: Player defines no
dunder eq, so the comparison falls back to object identity, and an id string
is never the same object as a Player — the comparison is False for every
pair.  This is the id-versus-Player inconsistency the spec flags. -/
def pyEq_id_player (_pid : String) (_p : Player) : Bool := false

/-- BlockedOnPlayerDiscard.validate (euchre/validators.py lines 40-44): the
membership test player_id in game.blocking_on_discard compares the raw
payload id against Player objects. -/
def BlockedOnPlayerDiscard_validate (pid : String) (g : EGame) : Bool :=
  g.blocking_on_discard.any (fun p => pyEq_id_player pid p)

/-- Modelled from the spec: the connection collaborator of section 6 of the
spec — get_connection(player_id) yields a connection exactly for the
connected ids, and the per-connection remove_card(card) acts on that player's
hand, returning whether the card was held.  src/core/net.py declares
Connection without add_card, remove_card or send_message (the executors also
subscript connections as connection[1]), so the collaborator behaviour is
taken from the interface contract in the spec. -/
structure Conns where
  connected : List String
deriving DecidableEq

/-- Player.remove_card (core/state.py lines 67-72) applied to the player with
the given id inside the game state: removes the first matching card when
held; the flag reports whether it was held. -/
def removeCardFromHand (g : EGame) (pid : String) (card : Card) : EGame × Bool :=
  match get_player g pid with
  | none => (g, false)
  | some p =>
    if p.hand.contains card then
      ({ g with players := g.players.map (fun q =>
          if q.id == pid then { q with hand := q.hand.erase card } else q) }, true)
    else (g, false)

/-- Game.remove_blocking_discard (euchre/setup.py lines 80-83) on the result
of get_player: remove the first occurrence of the Player (identity modelled
by the unique id); a None argument or an absent player is a no-op. -/
def remove_blocking_discard (g : EGame) (pOpt : Option Player) : EGame :=
  match pOpt with
  | none => g
  | some p =>
    if g.blocking_on_discard.any (fun q => q.id == p.id) then
      { g with blocking_on_discard := g.blocking_on_discard.eraseP (fun q => q.id == p.id) }
    else g

/-- Discard.execute (euchre/executors.py lines 105-118): unblock the player,
then, if a connection exists and the card was held, optionally show the card
on the board and set phase PLAY; otherwise report the card as not in hand.
The show flag is False for every Discard built by EuchreActionBuilder (its
payload has no show key). -/
def Discard_execute (cm : Conns) (b : Slots) (pid : String) (card : Card)
    (show_card : Bool) (g : EGame) : (EGame × Slots) × ActionResult :=
  let g1 := remove_blocking_discard g (get_player g pid)
  if cm.connected.contains pid then
    let r := removeCardFromHand g1 pid card
    if r.2 then
      let b1 := if show_card then slotsAdd b pid card else b
      (({ r.1 with phase := Phase.PLAY }, b1),
        { success := true, message := "Discarded", follow_up_actions := [] })
    else ((r.1, b), { success := false, message := "Card not in hand", follow_up_actions := [] })
  else ((g1, b), { success := false, message := "Card not in hand", follow_up_actions := [] })

/-- Validators of the discard rule in registration order (euchre/rules.py
lines 32-38): CorrectPhase, HasCard, BlockedOnPlayerDiscard. -/
def discardRuleValidators (pid : String) (card : Card) : List (EGame → Bool) :=
  [fun g => CorrectPhase_validate_discard g,
   fun g => HasCard_validate pid card g,
   fun g => BlockedOnPlayerDiscard_validate pid g]

/-- Dealer player for the C5 scenario: enqueued in blocking_on_discard and
holding the card to discard. -/
def c5Dealer : Player :=
  { id := "d1", team_id := 1, hand := [{ rank := "9", suit := "Hearts" }, { rank := "A", suit := "Spades" }] }

/-- Card the dealer tries to discard in the C5 scenario. -/
def c5Card : Card := { rank := "9", suit := "Hearts" }

/-- Game state for C5: phase DISCARD right after a pickup enqueued the dealer
into blocking_on_discard. -/
def c5Game : EGame :=
  { phase := Phase.DISCARD,
    players := [c5Dealer,
      { id := "p2", team_id := 2, hand := [] },
      { id := "p3", team_id := 1, hand := [] },
      { id := "p4", team_id := 2, hand := [] }],
    score1 := 0, score2 := 0, hand_score1 := 0, hand_score2 := 0,
    calling_team := some 1, renegs := [], current_dealer := "d1",
    current_player := "p2", blocking_on_discard := [c5Dealer],
    trump_suit := some "Spades" }

/-- Connections for the C5 scenario: everyone connected. -/
def c5Conns : Conns := { connected := ["d1", "p2", "p3", "p4"] }

/-- C5: the claim describes the intended flow (the spec itself flags the
id-versus-Player comparison as an inconsistency), but in the code the
blocking-on-discard membership check compares the raw payload id against
Player objects and is False for every input, so even the dealer who was just
enqueued by a pickup and holds the named card fails validation: process
returns the generic failure and the executor never runs, leaving the game
stuck in DISCARD.  Had the executor run, it would indeed remove the dealer
from blocking_on_discard and set the phase to PLAY. -/
theorem c5_discard_blocking_code_bug :
    (∀ (pid : String) (g : EGame), BlockedOnPlayerDiscard_validate pid g = false) ∧
    CorrectPhase_validate_discard c5Game = true ∧
    HasCard_validate "d1" c5Card c5Game = true ∧
    ActionRule_process (discardRuleValidators "d1" c5Card)
        (fun g => ((Discard_execute c5Conns [] "d1" c5Card false g).1.1,
                   (Discard_execute c5Conns [] "d1" c5Card false g).2)) c5Game =
      { result := { success := false, message := "Action validation failed", follow_up_actions := [] },
        validator_calls := 3, executor_ran := false, state := c5Game } ∧
    (Discard_execute c5Conns [] "d1" c5Card false c5Game).1.1.blocking_on_discard = [] ∧
    (Discard_execute c5Conns [] "d1" c5Card false c5Game).1.1.phase = Phase.PLAY ∧
    (Discard_execute c5Conns [] "d1" c5Card false c5Game).2.success = true := by
  refine ⟨?_, rfl, rfl, by decide, by decide, rfl, rfl⟩
  intro pid g
  simp [BlockedOnPlayerDiscard_validate, pyEq_id_player]

/-- Python list.index(player) over the players of a game (object identity
modelled by unique ids): position of the first match, ValueError when the
player is not in the list. -/
def players_index (ps : List Player) (pid : String) : Except PyError Nat :=
  match ps.findIdx? (fun p => p.id == pid) with
  | some i => Except.ok i
  | none => Except.error (PyError.valueError "not in list")

/-- Placeholder player for the always-in-bounds indexed read below. -/
def defaultPlayer : Player := { id := "", team_id := 0, hand := [] }

/-- Post-advance game: the current player moved to the next seat modulo the
player count (the indexed read is in bounds whenever the index lookup
succeeded, so a default-completed read is used). -/
def advanced (g : EGame) (i : Nat) : EGame :=
  { g with current_player := (g.players.getD ((i + 1) % g.players.length) defaultPlayer).id }

/-- AdvanceTurn.execute (euchre/executors.py lines 120-137).  The circuit test
trick_over compares dealer and current player BEFORE the advance; the advance
itself always happens.  The method has no return statement on the path where
trick_over is false, nor when the circuit completes in a phase other than
PICKUP_CARD, PICK_SUIT or PLAY: Python then returns None, modelled as a none
result. -/
def AdvanceTurn_execute (g : EGame) : Except PyError (EGame × Option ActionResult) :=
  let trick_over := g.current_dealer == g.current_player
  match players_index g.players g.current_player with
  | Except.error e => Except.error e
  | Except.ok ci =>
    let g1 := advanced g ci
    if trick_over then
      match g1.phase with
      | Phase.PICKUP_CARD =>
        Except.ok ({ g1 with phase := Phase.PICK_SUIT },
          some { success := true, message := "Turn advanced", follow_up_actions := [FollowUpKind.broadcast] })
      | Phase.PICK_SUIT =>
        Except.ok ({ g1 with phase := Phase.DISCARD },
          some { success := true, message := "Dealer must discard a card.", follow_up_actions := [FollowUpKind.broadcast] })
      | Phase.PLAY =>
        Except.ok ({ g1 with phase := Phase.SCORE_TRICK },
          some { success := true, message := "Trick over. Scoring...",
                 follow_up_actions := [FollowUpKind.broadcast, FollowUpKind.scoreTrick] })
      | _ => Except.ok (g1, none)
    else Except.ok (g1, none)

/-- Game state for the C4 counterexample: four seats, dealer at seat 1, the
current player at seat 0, bidding phase PICKUP_CARD. -/
def c4Game : EGame :=
  { phase := Phase.PICKUP_CARD,
    players := [{ id := "a", team_id := 1, hand := [] },
                { id := "b", team_id := 2, hand := [] },
                { id := "c", team_id := 1, hand := [] },
                { id := "d", team_id := 2, hand := [] }],
    score1 := 0, score2 := 0, hand_score1 := 0, hand_score2 := 0,
    calling_team := none, renegs := [], current_dealer := "b",
    current_player := "a", blocking_on_discard := [], trump_suit := none }

/-- C4 counterexample: advancing from c4Game moves the current player onto
the dealer, so under the claim (circuit detected by comparing the
POST-advance current player to the dealer) the phase would be promoted
PICKUP_CARD to PICK_SUIT; the code compares BEFORE advancing, leaves the
phase at PICKUP_CARD, and returns None. -/
theorem c4_circuit_detection_counterexample :
    AdvanceTurn_execute c4Game =
      Except.ok ({ c4Game with current_player := "b" }, none) ∧
    ({ c4Game with current_player := "b" } : EGame).current_player = c4Game.current_dealer ∧
    ({ c4Game with current_player := "b" } : EGame).phase = Phase.PICKUP_CARD ∧
    Phase.PICKUP_CARD ≠ Phase.PICK_SUIT := by
  refine ⟨rfl, rfl, rfl, by decide⟩

/-- C4 (amended): on every advance the current player moves to the next seat
modulo the player count; the circuit-complete event is detected by comparing
the PRE-advance current player to the dealer, and when it fires the phase is
promoted PICKUP_CARD to PICK_SUIT, PICK_SUIT to DISCARD, and in PLAY to
SCORE_TRICK with a ScoreTrick follow-up enqueued; on a mid-circuit advance
the phase is unchanged (and no result object is produced). -/
theorem c4_advance_turn_amended (g : EGame) (i : Nat)
    (hfind : g.players.findIdx? (fun p => p.id == g.current_player) = some i) :
    ∃ g1 r, AdvanceTurn_execute g = Except.ok (g1, r) ∧
      g1.current_player = (g.players.getD ((i + 1) % g.players.length) defaultPlayer).id ∧
      (g.current_dealer = g.current_player →
        (g.phase = Phase.PICKUP_CARD → g1.phase = Phase.PICK_SUIT) ∧
        (g.phase = Phase.PICK_SUIT → g1.phase = Phase.DISCARD) ∧
        (g.phase = Phase.PLAY → g1.phase = Phase.SCORE_TRICK ∧
          r = some { success := true, message := "Trick over. Scoring...",
                     follow_up_actions := [FollowUpKind.broadcast, FollowUpKind.scoreTrick] })) ∧
      (g.current_dealer ≠ g.current_player → g1.phase = g.phase ∧ r = none) := by
  have hidx : players_index g.players g.current_player = Except.ok i := by
    simp [players_index, hfind]
  by_cases hdc : g.current_dealer = g.current_player
  · have hb : (g.current_dealer == g.current_player) = true := by simp [hdc]
    cases hph : g.phase
    · refine ⟨advanced g i, none, ?_, ?_, ?_, ?_⟩
      · simp [AdvanceTurn_execute, hidx, hb, hph, advanced]
      · rfl
      · intro _
        exact ⟨fun hcon => absurd hcon (by decide), fun hcon => absurd hcon (by decide),
          fun hcon => absurd hcon (by decide)⟩
      · exact fun hcon => absurd hdc hcon
    · refine ⟨advanced g i, none, ?_, ?_, ?_, ?_⟩
      · simp [AdvanceTurn_execute, hidx, hb, hph, advanced]
      · rfl
      · intro _
        exact ⟨fun hcon => absurd hcon (by decide), fun hcon => absurd hcon (by decide),
          fun hcon => absurd hcon (by decide)⟩
      · exact fun hcon => absurd hdc hcon
    · refine ⟨{ advanced g i with phase := Phase.PICK_SUIT },
        some { success := true, message := "Turn advanced", follow_up_actions := [FollowUpKind.broadcast] },
        ?_, ?_, ?_, ?_⟩
      · simp [AdvanceTurn_execute, hidx, hb, hph, advanced]
      · rfl
      · intro _
        exact ⟨fun _ => rfl, fun hcon => absurd hcon (by decide), fun hcon => absurd hcon (by decide)⟩
      · exact fun hcon => absurd hdc hcon
    · refine ⟨{ advanced g i with phase := Phase.DISCARD },
        some { success := true, message := "Dealer must discard a card.", follow_up_actions := [FollowUpKind.broadcast] },
        ?_, ?_, ?_, ?_⟩
      · simp [AdvanceTurn_execute, hidx, hb, hph, advanced]
      · rfl
      · intro _
        exact ⟨fun hcon => absurd hcon (by decide), fun _ => rfl, fun hcon => absurd hcon (by decide)⟩
      · exact fun hcon => absurd hdc hcon
    · refine ⟨advanced g i, none, ?_, ?_, ?_, ?_⟩
      · simp [AdvanceTurn_execute, hidx, hb, hph, advanced]
      · rfl
      · intro _
        exact ⟨fun hcon => absurd hcon (by decide), fun hcon => absurd hcon (by decide),
          fun hcon => absurd hcon (by decide)⟩
      · exact fun hcon => absurd hdc hcon
    · refine ⟨{ advanced g i with phase := Phase.SCORE_TRICK },
        some { success := true, message := "Trick over. Scoring...",
               follow_up_actions := [FollowUpKind.broadcast, FollowUpKind.scoreTrick] },
        ?_, ?_, ?_, ?_⟩
      · simp [AdvanceTurn_execute, hidx, hb, hph, advanced]
      · rfl
      · intro _
        exact ⟨fun hcon => absurd hcon (by decide), fun hcon => absurd hcon (by decide),
          fun _ => ⟨rfl, rfl⟩⟩
      · exact fun hcon => absurd hdc hcon
    · refine ⟨advanced g i, none, ?_, ?_, ?_, ?_⟩
      · simp [AdvanceTurn_execute, hidx, hb, hph, advanced]
      · rfl
      · intro _
        exact ⟨fun hcon => absurd hcon (by decide), fun hcon => absurd hcon (by decide),
          fun hcon => absurd hcon (by decide)⟩
      · exact fun hcon => absurd hdc hcon
    · refine ⟨advanced g i, none, ?_, ?_, ?_, ?_⟩
      · simp [AdvanceTurn_execute, hidx, hb, hph, advanced]
      · rfl
      · intro _
        exact ⟨fun hcon => absurd hcon (by decide), fun hcon => absurd hcon (by decide),
          fun hcon => absurd hcon (by decide)⟩
      · exact fun hcon => absurd hdc hcon
    · refine ⟨advanced g i, none, ?_, ?_, ?_, ?_⟩
      · simp [AdvanceTurn_execute, hidx, hb, hph, advanced]
      · rfl
      · intro _
        exact ⟨fun hcon => absurd hcon (by decide), fun hcon => absurd hcon (by decide),
          fun hcon => absurd hcon (by decide)⟩
      · exact fun hcon => absurd hdc hcon
  · have hb : (g.current_dealer == g.current_player) = false := by
      simp [hdc]
    refine ⟨advanced g i, none, ?_, ?_, ?_, ?_⟩
    · simp [AdvanceTurn_execute, hidx, hb, advanced]
    · rfl
    · exact fun hcon => absurd hcon hdc
    · exact fun _ => ⟨rfl, rfl⟩

/-- Game state for the C4 witness: dealer and current player coincide at seat
0 in phase PLAY, so the circuit fires and trick scoring is triggered. -/
def c4WitnessGame : EGame :=
  { c4Game with phase := Phase.PLAY, current_dealer := "a" }

/-- Witness for C4 (amended) at a concrete circuit-completing state in PLAY:
the advance lands on seat 1 and scoring is triggered. -/
theorem c4_advance_turn_amended_witness :
    ∃ g1 r, AdvanceTurn_execute c4WitnessGame = Except.ok (g1, r) ∧
      g1.current_player =
        (c4WitnessGame.players.getD ((0 + 1) % c4WitnessGame.players.length) defaultPlayer).id ∧
      (c4WitnessGame.current_dealer = c4WitnessGame.current_player →
        (c4WitnessGame.phase = Phase.PICKUP_CARD → g1.phase = Phase.PICK_SUIT) ∧
        (c4WitnessGame.phase = Phase.PICK_SUIT → g1.phase = Phase.DISCARD) ∧
        (c4WitnessGame.phase = Phase.PLAY → g1.phase = Phase.SCORE_TRICK ∧
          r = some { success := true, message := "Trick over. Scoring...",
                     follow_up_actions := [FollowUpKind.broadcast, FollowUpKind.scoreTrick] })) ∧
      (c4WitnessGame.current_dealer ≠ c4WitnessGame.current_player → g1.phase = c4WitnessGame.phase ∧ r = none) :=
  c4_advance_turn_amended c4WitnessGame 0 (by decide)

/-- Read of result.success performed by ActionRule.run_executors (core/logic.py
line 69) on what an executor returned: when the executor returned None (no
ActionResult), the attribute access raises AttributeError. -/
def result_success_read : Option ActionResult → Except PyError Bool
  | none => Except.error (PyError.attributeError "success")
  | some r => Except.ok r.success

/-- Game state for the C10 failing input: a mid-circuit advance in PLAY
(current player at seat 0 is not the dealer at seat 1), as happens after any
card play that does not close the trick. -/
def c10Game : EGame :=
  { c4Game with phase := Phase.PLAY }

/-- C10: the claim restates the documented ActionExecutor contract (execute
returns an ActionResult), but AdvanceTurn.execute returns None on a
mid-circuit advance, and the drain in run_executors then reads
result.success, which raises AttributeError — the access is not well-defined
there. -/
theorem c10_advance_turn_none_code_bug :
    AdvanceTurn_execute c10Game = Except.ok ({ c10Game with current_player := "b" }, none) ∧
    result_success_read none = Except.error (PyError.attributeError "success") := by
  refine ⟨rfl, rfl⟩

/-- Python list indexing renegs[t]: IndexError when t is out of range. -/
def pyListGet {β : Type} (l : List β) (i : Nat) : Except PyError β :=
  match l.get? i with
  | some v => Except.ok v
  | none => Except.error PyError.indexError

/-- Python truthiness of a reneg entry: the entries are 2-tuples
(team_id, reason) and a non-empty tuple is always truthy. -/
def pyTruthyPair (_entry : Nat × String) : Bool := true

/-- Reneg.execute (euchre/executors.py lines 26-37), given the accusing team
id t (in the source t = game.get_player(payload player_id).team_id; the
call_reneg payload actually carries trick_number and team_id and no
player_id, so CPython raises KeyError on the lookup even before this body —
team_id on Player is also only Modelled from the spec, see Player).  The
body indexes the reneg LIST by the team id, so with fewer than t+1 recorded
renegs it raises IndexError; an in-bounds entry is a truthy tuple, so the
upheld branch runs: it adds 5 to the accusing team hand score and then calls
ActionResult with four positional arguments (success, message, an empty dict,
the follow-up list) against the three-parameter constructor, raising
TypeError.  The rejected branch (reachable only for a falsy entry, which the
appended 2-tuples never are) would return a FAILED ActionResult carrying
Broadcast and ScoreHand follow-ups — and run_executors returns a failed
result immediately without executing its follow-ups, so hand scoring would
not run there either.  The returned pair is (state after mutations, outcome). -/
def Reneg_execute (g : EGame) (t : Nat) : EGame × Except PyError ActionResult :=
  match pyListGet g.renegs t with
  | Except.error e => (g, Except.error e)
  | Except.ok entry =>
    if pyTruthyPair entry then
      match hand_score_add g t 5 with
      | Except.error e => (g, Except.error e)
      | Except.ok g1 =>
        (g1, Except.error (PyError.typeError "ActionResult takes from 3 to 4 positional arguments but 5 were given"))
    else
      let opposing : Nat := if t == 2 then 1 else 2
      match hand_score_add g opposing 5 with
      | Except.error e => (g, Except.error e)
      | Except.ok g1 =>
        (g1, Except.ok { success := false, message := "Team failed a reneg call",
                         follow_up_actions := [FollowUpKind.broadcast, FollowUpKind.scoreHand] })

/-- C3: the claim matches the spec text, but Reneg.execute raises an
exception on every invocation — IndexError when fewer than t+1 renegs are
recorded (renegs is a list indexed by the team id; in every actual run it is
empty, since nothing in src ever calls add_reneg), and otherwise the truthy
tuple sends it into the upheld branch, which adds the 5 points and then
crashes with TypeError by passing four positional arguments to the
three-parameter ActionResult constructor.  Consequently no reneg accusation
ever yields an ActionResult and hand scoring is never triggered by one. -/
theorem c3_reneg_always_raises (g : EGame) (t : Nat) :
    ∃ g1 e, Reneg_execute g t = (g1, Except.error e) := by
  unfold Reneg_execute
  cases hidx : pyListGet g.renegs t with
  | error e => exact ⟨g, e, rfl⟩
  | ok entry =>
    simp only [pyTruthyPair, if_true]
    unfold hand_score_add
    by_cases h1 : t = 1
    · simp only [h1, if_pos rfl]
      exact ⟨_, _, rfl⟩
    · by_cases h2 : t = 2
      · simp only [h1, h2, if_neg, if_pos rfl, reduceIte]
        exact ⟨_, _, rfl⟩
      · simp only [h1, h2, reduceIte]
        exact ⟨_, _, rfl⟩

/-- Game state for the C3 illustration: two renegs recorded against team 2,
one trick already scored for team 1. -/
def c3Game : EGame :=
  { phase := Phase.PLAY,
    players := [{ id := "a", team_id := 1, hand := [] },
                { id := "b", team_id := 2, hand := [] },
                { id := "c", team_id := 1, hand := [] },
                { id := "d", team_id := 2, hand := [] }],
    score1 := 0, score2 := 0, hand_score1 := 1, hand_score2 := 0,
    calling_team := some 1, renegs := [(2, "r0"), (2, "r1")],
    current_dealer := "d", current_player := "a", blocking_on_discard := [],
    trump_suit := some "Spades" }

/-- Witness for C3 at concrete inputs: with recorded renegs the accusation by
team 1 adds 5 hand points and then raises TypeError (the phase never leaves
PLAY and no ScoreHand follow-up is produced); with no renegs recorded (the
only state the code can actually reach) it raises IndexError immediately. -/
theorem c3_reneg_always_raises_witness :
    (∃ g1 e, Reneg_execute c3Game 1 = (g1, Except.error e)) ∧
    Reneg_execute c3Game 1 =
      ({ c3Game with hand_score1 := 6 },
        Except.error (PyError.typeError "ActionResult takes from 3 to 4 positional arguments but 5 were given")) ∧
    Reneg_execute { c3Game with renegs := [] } 1 =
      ({ c3Game with renegs := [] }, Except.error PyError.indexError) :=
  ⟨c3_reneg_always_raises c3Game 1, rfl, rfl⟩

/-- Rank order dict lookup in card_value (euchre/executors.py line 190):
order.get(card.rank, -1) over the dict 9, 10, J, Q, K, A mapped to 0..5. -/
def rank_order (r : String) : Int :=
  if r = "9" then 0
  else if r = "10" then 1
  else if r = "J" then 2
  else if r = "Q" then 3
  else if r = "K" then 4
  else if r = "A" then 5
  else -1

/-- card_value closure inside ScoreTrick.execute (euchre/executors.py lines
188-196): the led-suit test comes first and the trump test is its elif, so a
card whose suit is both the led suit and trump receives only the +10 bonus.
trump_suit is Optional and a string never equals None. -/
def card_value (starting_suit : String) (trump_suit : Option String) (c : Card) : Int :=
  let bonus : Int :=
    if c.suit = starting_suit then 10
    else if trump_suit = some c.suit then 20
    else 0
  rank_order c.rank + bonus

/-- Python max(played_cards, key=...) (euchre/executors.py line 199): fold
that replaces the current best only on a strictly larger key, so ties keep
the earliest element. -/
def pyMaxBy {β : Type} (f : β → Int) (a : β) (l : List β) : β :=
  match l with
  | [] => a
  | x :: xs => pyMaxBy f (if f a < f x then x else a) xs

/-- Gathering loop of ScoreTrick.execute (euchre/executors.py lines 176-185):
walk the players in seating order starting at the current player; a missing
or empty slot aborts with a failed ActionResult carrying no follow-ups;
otherwise pair each player with the top (last) card of their slot. -/
def gather_played (ps : List Player) (start : Nat) (b : Slots) :
    Except ActionResult (List (Player × Card)) :=
  (List.range ps.length).mapM (fun i =>
    let player := ps.getD ((start + i) % ps.length) defaultPlayer
    match slotsGet b player.id with
    | some cards =>
      match cards.getLast? with
      | some c => Except.ok (player, c)
      | none =>
        Except.error
          { success := false, message := "missing play", follow_up_actions := [] }
    | none =>
      Except.error
        { success := false, message := "missing play", follow_up_actions := [] })

/-- ScoreTrick.execute (euchre/executors.py lines 173-211): gather the played
cards in seating order from the current player, take the led suit from the
first play, pick the winning play by Python max over card_value, add one hand
point to the winning team (team_id is Modelled from the spec, see Player),
then either move to SCORE_GAME with a ScoreHand follow-up when the hand
totals at least 5 trick points, or return to PLAY with the winner leading the
next trick. -/
def ScoreTrick_execute (b : Slots) (g : EGame) : Except PyError (EGame × ActionResult) :=
  match players_index g.players g.current_player with
  | Except.error e => Except.error e
  | Except.ok si =>
    match gather_played g.players si b with
    | Except.error res => Except.ok (g, res)
    | Except.ok played =>
      match played with
      | [] => Except.error PyError.indexError
      | p0 :: rest =>
        let f := fun (pc : Player × Card) => card_value p0.2.suit g.trump_suit pc.2
        let w := pyMaxBy f p0 rest
        match hand_score_add g w.1.team_id 1 with
        | Except.error e => Except.error e
        | Except.ok g1 =>
          if 5 ≤ g1.hand_score1 + g1.hand_score2 then
            Except.ok ({ g1 with phase := Phase.SCORE_GAME },
              { success := true, message := "Hand over. Scoring...",
                follow_up_actions := [FollowUpKind.broadcast, FollowUpKind.scoreHand] })
          else
            Except.ok ({ g1 with phase := Phase.PLAY, current_player := w.1.id },
              { success := true, message := "wins the trick",
                follow_up_actions := [FollowUpKind.broadcast, FollowUpKind.notifyCurrentPlayer] })

/-- Adjusted value exactly as claim C1 words it: the rank index from the base
order 9 below 10 below J below Q below K below A mapped to 0..5, plus 10 if
the suit equals the led suit, plus 20 if the suit equals the trump suit (read
additively, a card matching both gets both bonuses). -/
def claimC1_adjusted_value (led : String) (trump : String) (c : Card) : Int :=
  rank_order c.rank + (if c.suit = led then 10 else 0) + (if c.suit = trump then 20 else 0)

/-- Adjusted value as the amended claim words it: the same rank index, plus
10 if the suit equals the led suit, OTHERWISE plus 20 if it equals the trump
suit (at most one bonus; the led-suit bonus takes precedence when the led
suit is trump). -/
def amended_adjusted_value (led : String) (trump_suit : Option String) (c : Card) : Int :=
  (EuchreDeck_RANKS.indexOf c.rank : Int) +
    (if c.suit = led then 10 else if trump_suit = some c.suit then 20 else 0)

/-- C1 counterexample: when the led suit is itself trump (a trump card led
the trick — here a trick of four spades with trump Spades), the claimed
additive formula gives 9-of-Spades an adjusted value of 30 while the code
computes 10 (the elif skips the trump bonus), so the claim as stated fails;
the executor on that trick still runs and scores the queen as winner. -/
theorem c1_adjusted_value_counterexample :
    card_value "Spades" (some "Spades") { rank := "9", suit := "Spades" } = 10 ∧
    claimC1_adjusted_value "Spades" "Spades" { rank := "9", suit := "Spades" } = 30 ∧
    card_value "Spades" (some "Spades") { rank := "9", suit := "Spades" } ≠
      claimC1_adjusted_value "Spades" "Spades" { rank := "9", suit := "Spades" } := by
  refine ⟨rfl, rfl, by decide⟩

/-- Python max keeps an element of the scanned collection. -/
theorem pyMaxBy_mem {β : Type} (f : β → Int) (a : β) (l : List β) :
    pyMaxBy f a l = a ∨ pyMaxBy f a l ∈ l := by
  induction l generalizing a with
  | nil => exact Or.inl rfl
  | cons x xs ih =>
    simp only [pyMaxBy]
    rcases ih (if f a < f x then x else a) with h | h
    · rw [h]
      split
      · exact Or.inr (List.mem_cons_self _ _)
      · exact Or.inl rfl
    · exact Or.inr (List.mem_cons_of_mem _ h)

/-- Python max dominates the seed and every scanned element. -/
theorem pyMaxBy_le {β : Type} (f : β → Int) (a : β) (l : List β) :
    f a ≤ f (pyMaxBy f a l) ∧ ∀ x ∈ l, f x ≤ f (pyMaxBy f a l) := by
  induction l generalizing a with
  | nil => exact ⟨le_refl _, fun x hx => absurd hx (List.not_mem_nil x)⟩
  | cons y ys ih =>
    simp only [pyMaxBy]
    obtain ⟨h1, h2⟩ := ih (if f a < f y then y else a)
    constructor
    · refine le_trans ?_ h1
      split
      · next hlt => exact le_of_lt hlt
      · exact le_refl _
    · intro x hx
      rcases List.mem_cons.mp hx with rfl | hx2
      · refine le_trans ?_ h1
        split
        · exact le_refl _
        · next hnlt => exact le_of_not_lt hnlt
      · exact h2 x hx2

/-- Euchre ranks evaluate between 0 and 5 under the rank-order dict. -/
theorem rank_order_bounds (r : String) (h : r ∈ EuchreDeck_RANKS) :
    0 ≤ rank_order r ∧ rank_order r ≤ 5 := by
  simp only [EuchreDeck_RANKS, List.mem_cons, List.not_mem_nil, or_false] at h
  rcases h with rfl | rfl | rfl | rfl | rfl | rfl <;> decide

/-- The rank-order dict is injective on the euchre ranks. -/
theorem rank_order_inj (r1 r2 : String) (h1 : r1 ∈ EuchreDeck_RANKS)
    (h2 : r2 ∈ EuchreDeck_RANKS) (he : rank_order r1 = rank_order r2) : r1 = r2 := by
  simp only [EuchreDeck_RANKS, List.mem_cons, List.not_mem_nil, or_false] at h1 h2
  rcases h1 with rfl | rfl | rfl | rfl | rfl | rfl <;>
    rcases h2 with rfl | rfl | rfl | rfl | rfl | rfl <;> revert he <;> decide

/-- On euchre ranks the rank-order dict agrees with the position in the base
order 9, 10, J, Q, K, A (the rank index 0..5 of the claim). -/
theorem rank_order_eq_index (r : String) (h : r ∈ EuchreDeck_RANKS) :
    rank_order r = (EuchreDeck_RANKS.indexOf r : Int) := by
  simp only [EuchreDeck_RANKS, List.mem_cons, List.not_mem_nil, or_false] at h
  rcases h with rfl | rfl | rfl | rfl | rfl | rfl <;> decide

/-- On euchre ranks the code value function agrees with the amended claim
formula. -/
theorem card_value_eq_amended (led : String) (tr : Option String) (c : Card)
    (h : c.rank ∈ EuchreDeck_RANKS) :
    card_value led tr c = amended_adjusted_value led tr c := by
  simp only [card_value, amended_adjusted_value, rank_order_eq_index c.rank h]

/-- Uniqueness of the maximal adjusted value among distinct euchre cards: two
cards in a bonus band (value at least 10) with equal values are the same
card, because the led band 10..15 and the trump band 20..25 are disjoint and
within a band the suit is fixed and the rank determines the value. -/
theorem card_value_eq_unique (led : String) (tr : Option String) (c d : Card)
    (hc : c.rank ∈ EuchreDeck_RANKS) (hd : d.rank ∈ EuchreDeck_RANKS)
    (hband : 10 ≤ card_value led tr c)
    (heq : card_value led tr c = card_value led tr d) : c = d := by
  obtain ⟨h0c, h5c⟩ := rank_order_bounds c.rank hc
  obtain ⟨h0d, h5d⟩ := rank_order_bounds d.rank hd
  simp only [card_value] at hband heq
  by_cases hcl : c.suit = led
  · by_cases hdl : d.suit = led
    · rw [if_pos hcl, if_pos hdl] at heq
      have hrk : c.rank = d.rank := rank_order_inj _ _ hc hd (by omega)
      have hst : c.suit = d.suit := by rw [hcl, hdl]
      cases c; cases d
      simp_all
    · rw [if_pos hcl, if_neg hdl] at heq
      by_cases hdt : tr = some d.suit
      · rw [if_pos hdt] at heq
        exfalso; omega
      · rw [if_neg hdt] at heq
        exfalso; omega
  · by_cases hct : tr = some c.suit
    · rw [if_neg hcl, if_pos hct] at heq
      by_cases hdl : d.suit = led
      · rw [if_pos hdl] at heq
        exfalso; omega
      · rw [if_neg hdl] at heq
        by_cases hdt : tr = some d.suit
        · rw [if_pos hdt] at heq
          have hst : c.suit = d.suit := by
            rw [hct] at hdt
            exact Option.some.inj hdt
          have hrk : c.rank = d.rank := rank_order_inj _ _ hc hd (by omega)
          cases c; cases d
          simp_all
        · rw [if_neg hdt] at heq
          exfalso; omega
    · rw [if_neg hcl, if_neg hct] at hband
      exfalso; omega

/-- C1 (amended): for a full trick of four plays of distinct euchre cards,
trick scoring computes every adjusted value as the rank index 0..5 plus 10
for the led suit, OTHERWISE plus 20 for trump (at most one bonus, led first);
the winning play (Python max, earliest on ties) attains the maximum adjusted
value and is the unique play attaining it, and exactly one hand point is
added to the winning team and none to the other team. -/
theorem c1_score_trick_amended (b : Slots) (g : EGame) (si : Nat)
    (p0 : Player × Card) (rest : List (Player × Card))
    (_hfour : g.players.length = 4)
    (hfind : g.players.findIdx? (fun p => p.id == g.current_player) = some si)
    (hgather : gather_played g.players si b = Except.ok (p0 :: rest))
    (hranks : ∀ pc ∈ p0 :: rest, pc.2.rank ∈ EuchreDeck_RANKS)
    (hnodup : ((p0 :: rest).map (fun pc => pc.2)).Nodup)
    (hteams : ∀ pc ∈ p0 :: rest, pc.1.team_id = 1 ∨ pc.1.team_id = 2) :
    ∃ g1 res, ScoreTrick_execute b g = Except.ok (g1, res) ∧
      (∀ pc ∈ p0 :: rest,
        card_value p0.2.suit g.trump_suit pc.2 =
          amended_adjusted_value p0.2.suit g.trump_suit pc.2) ∧
      (pyMaxBy (fun pc => card_value p0.2.suit g.trump_suit pc.2) p0 rest ∈ p0 :: rest) ∧
      (∀ pc ∈ p0 :: rest,
        card_value p0.2.suit g.trump_suit pc.2 ≤
          card_value p0.2.suit g.trump_suit
            (pyMaxBy (fun pc => card_value p0.2.suit g.trump_suit pc.2) p0 rest).2) ∧
      (∀ pc ∈ p0 :: rest,
        card_value p0.2.suit g.trump_suit pc.2 =
          card_value p0.2.suit g.trump_suit
            (pyMaxBy (fun pc => card_value p0.2.suit g.trump_suit pc.2) p0 rest).2 →
        pc = pyMaxBy (fun pc => card_value p0.2.suit g.trump_suit pc.2) p0 rest) ∧
      teamHandScore g1
          (pyMaxBy (fun pc => card_value p0.2.suit g.trump_suit pc.2) p0 rest).1.team_id =
        teamHandScore g
          (pyMaxBy (fun pc => card_value p0.2.suit g.trump_suit pc.2) p0 rest).1.team_id + 1 ∧
      (∀ t, (t = 1 ∨ t = 2) →
        t ≠ (pyMaxBy (fun pc => card_value p0.2.suit g.trump_suit pc.2) p0 rest).1.team_id →
        teamHandScore g1 t = teamHandScore g t) := by
  have hidx : players_index g.players g.current_player = Except.ok si := by
    simp [players_index, hfind]
  obtain ⟨hle0, hlerest⟩ :=
    pyMaxBy_le (fun pc => card_value p0.2.suit g.trump_suit pc.2) p0 rest
  have hwmem : pyMaxBy (fun pc => card_value p0.2.suit g.trump_suit pc.2) p0 rest ∈ p0 :: rest := by
    rcases pyMaxBy_mem (fun pc => card_value p0.2.suit g.trump_suit pc.2) p0 rest with h | h
    · rw [h]; exact List.mem_cons_self _ _
    · exact List.mem_cons_of_mem _ h
  have hA : ∀ pc ∈ p0 :: rest,
      card_value p0.2.suit g.trump_suit pc.2 =
        amended_adjusted_value p0.2.suit g.trump_suit pc.2 :=
    fun pc hpc => card_value_eq_amended _ _ _ (hranks pc hpc)
  have hC : ∀ pc ∈ p0 :: rest,
      card_value p0.2.suit g.trump_suit pc.2 ≤
        card_value p0.2.suit g.trump_suit
          (pyMaxBy (fun pc => card_value p0.2.suit g.trump_suit pc.2) p0 rest).2 := by
    intro pc hpc
    rcases List.mem_cons.mp hpc with rfl | h
    · exact hle0
    · exact hlerest pc h
  have hp0band : (10 : Int) ≤ card_value p0.2.suit g.trump_suit p0.2 := by
    obtain ⟨hb0, hb5⟩ := rank_order_bounds p0.2.rank (hranks p0 (List.mem_cons_self _ _))
    simp [card_value]
    omega
  have hD : ∀ pc ∈ p0 :: rest,
      card_value p0.2.suit g.trump_suit pc.2 =
        card_value p0.2.suit g.trump_suit
          (pyMaxBy (fun pc => card_value p0.2.suit g.trump_suit pc.2) p0 rest).2 →
      pc = pyMaxBy (fun pc => card_value p0.2.suit g.trump_suit pc.2) p0 rest := by
    intro pc hpc hfeq
    have h10 : (10 : Int) ≤ card_value p0.2.suit g.trump_suit pc.2 := by
      have hw0 := hle0
      omega
    have hcards : pc.2 =
        (pyMaxBy (fun pc => card_value p0.2.suit g.trump_suit pc.2) p0 rest).2 :=
      card_value_eq_unique p0.2.suit g.trump_suit pc.2 _
        (hranks pc hpc) (hranks _ hwmem) h10 hfeq
    exact List.inj_on_of_nodup_map hnodup hpc hwmem hcards
  rcases hteams _ hwmem with ht | ht
  · have hadd : hand_score_add g
        (pyMaxBy (fun pc => card_value p0.2.suit g.trump_suit pc.2) p0 rest).1.team_id 1 =
        Except.ok { g with hand_score1 := g.hand_score1 + 1 } := by
      rw [ht]; rfl
    by_cases h5 : 5 ≤ g.hand_score1 + 1 + g.hand_score2
    · refine ⟨{ g with hand_score1 := g.hand_score1 + 1, phase := Phase.SCORE_GAME },
        { success := true, message := "Hand over. Scoring...",
          follow_up_actions := [FollowUpKind.broadcast, FollowUpKind.scoreHand] },
        ?_, hA, hwmem, hC, hD, ?_, ?_⟩
      · simp only [ScoreTrick_execute, hidx, hgather, hadd]
        rw [if_pos h5]
      · rw [ht]; simp [teamHandScore]
      · intro t htm hne
        rw [ht] at hne
        rcases htm with rfl | rfl
        · exact absurd rfl hne
        · simp [teamHandScore]
    · refine ⟨{ g with hand_score1 := g.hand_score1 + 1, phase := Phase.PLAY, current_player := (pyMaxBy (fun pc => card_value p0.2.suit g.trump_suit pc.2) p0 rest).1.id },
        { success := true, message := "wins the trick",
          follow_up_actions := [FollowUpKind.broadcast, FollowUpKind.notifyCurrentPlayer] },
        ?_, hA, hwmem, hC, hD, ?_, ?_⟩
      · simp only [ScoreTrick_execute, hidx, hgather, hadd]
        rw [if_neg h5]
      · rw [ht]; simp [teamHandScore]
      · intro t htm hne
        rw [ht] at hne
        rcases htm with rfl | rfl
        · exact absurd rfl hne
        · simp [teamHandScore]
  · have hadd : hand_score_add g
        (pyMaxBy (fun pc => card_value p0.2.suit g.trump_suit pc.2) p0 rest).1.team_id 1 =
        Except.ok { g with hand_score2 := g.hand_score2 + 1 } := by
      rw [ht]; rfl
    by_cases h5 : 5 ≤ g.hand_score1 + (g.hand_score2 + 1)
    · refine ⟨{ g with hand_score2 := g.hand_score2 + 1, phase := Phase.SCORE_GAME },
        { success := true, message := "Hand over. Scoring...",
          follow_up_actions := [FollowUpKind.broadcast, FollowUpKind.scoreHand] },
        ?_, hA, hwmem, hC, hD, ?_, ?_⟩
      · simp only [ScoreTrick_execute, hidx, hgather, hadd]
        rw [if_pos h5]
      · rw [ht]; simp [teamHandScore]
      · intro t htm hne
        rw [ht] at hne
        rcases htm with rfl | rfl
        · simp [teamHandScore]
        · exact absurd rfl hne
    · refine ⟨{ g with hand_score2 := g.hand_score2 + 1, phase := Phase.PLAY, current_player := (pyMaxBy (fun pc => card_value p0.2.suit g.trump_suit pc.2) p0 rest).1.id },
        { success := true, message := "wins the trick",
          follow_up_actions := [FollowUpKind.broadcast, FollowUpKind.notifyCurrentPlayer] },
        ?_, hA, hwmem, hC, hD, ?_, ?_⟩
      · simp only [ScoreTrick_execute, hidx, hgather, hadd]
        rw [if_neg h5]
      · rw [ht]; simp [teamHandScore]
      · intro t htm hne
        rw [ht] at hne
        rcases htm with rfl | rfl
        · simp [teamHandScore]
        · exact absurd rfl hne

/-- Game state for the C1 witness, realising the example of the spec: trump
Spades, seats a, b, c, d on teams 1, 2, 1, 2, the current player a about to
be scored as leader of the gathered trick. -/
def c1Game : EGame :=
  { phase := Phase.SCORE_TRICK,
    players := [{ id := "a", team_id := 1, hand := [] },
                { id := "b", team_id := 2, hand := [] },
                { id := "c", team_id := 1, hand := [] },
                { id := "d", team_id := 2, hand := [] }],
    score1 := 0, score2 := 0, hand_score1 := 0, hand_score2 := 0,
    calling_team := some 1, renegs := [], current_dealer := "d",
    current_player := "a", blocking_on_discard := [], trump_suit := some "Spades" }

/-- Board for the C1 witness: the plays ace of Hearts, 10 of Hearts, 9 of
Spades, king of Clubs in seating order from the leader a. -/
def c1Board : Slots :=
  [("a", [{ rank := "A", suit := "Hearts" }]),
   ("b", [{ rank := "10", suit := "Hearts" }]),
   ("c", [{ rank := "9", suit := "Spades" }]),
   ("d", [{ rank := "K", suit := "Clubs" }])]

/-- Leading play of the C1 witness trick. -/
def c1p0 : Player × Card :=
  ({ id := "a", team_id := 1, hand := [] }, { rank := "A", suit := "Hearts" })

/-- Remaining plays of the C1 witness trick in seating order. -/
def c1rest : List (Player × Card) :=
  [({ id := "b", team_id := 2, hand := [] }, { rank := "10", suit := "Hearts" }),
   ({ id := "c", team_id := 1, hand := [] }, { rank := "9", suit := "Spades" }),
   ({ id := "d", team_id := 2, hand := [] }, { rank := "K", suit := "Clubs" })]

/-- Witness for C1 (amended) at the example of the spec: trump Spades, led
Hearts, plays ace of Hearts, 10 of Hearts, 9 of Spades, king of Clubs get
adjusted values 15, 11, 20, 4, and the 9 of Spades play of seat c (team 1)
wins the trick. -/
theorem c1_score_trick_amended_witness :
    (∃ g1 res, ScoreTrick_execute c1Board c1Game = Except.ok (g1, res) ∧
      (∀ pc ∈ c1p0 :: c1rest,
        card_value c1p0.2.suit c1Game.trump_suit pc.2 =
          amended_adjusted_value c1p0.2.suit c1Game.trump_suit pc.2) ∧
      (pyMaxBy (fun pc => card_value c1p0.2.suit c1Game.trump_suit pc.2) c1p0 c1rest ∈
        c1p0 :: c1rest) ∧
      (∀ pc ∈ c1p0 :: c1rest,
        card_value c1p0.2.suit c1Game.trump_suit pc.2 ≤
          card_value c1p0.2.suit c1Game.trump_suit
            (pyMaxBy (fun pc => card_value c1p0.2.suit c1Game.trump_suit pc.2) c1p0 c1rest).2) ∧
      (∀ pc ∈ c1p0 :: c1rest,
        card_value c1p0.2.suit c1Game.trump_suit pc.2 =
          card_value c1p0.2.suit c1Game.trump_suit
            (pyMaxBy (fun pc => card_value c1p0.2.suit c1Game.trump_suit pc.2) c1p0 c1rest).2 →
        pc = pyMaxBy (fun pc => card_value c1p0.2.suit c1Game.trump_suit pc.2) c1p0 c1rest) ∧
      teamHandScore g1
          (pyMaxBy (fun pc => card_value c1p0.2.suit c1Game.trump_suit pc.2) c1p0 c1rest).1.team_id =
        teamHandScore c1Game
          (pyMaxBy (fun pc => card_value c1p0.2.suit c1Game.trump_suit pc.2) c1p0 c1rest).1.team_id + 1 ∧
      (∀ t, (t = 1 ∨ t = 2) →
        t ≠ (pyMaxBy (fun pc => card_value c1p0.2.suit c1Game.trump_suit pc.2) c1p0 c1rest).1.team_id →
        teamHandScore g1 t = teamHandScore c1Game t)) ∧
    pyMaxBy (fun pc => card_value c1p0.2.suit c1Game.trump_suit pc.2) c1p0 c1rest =
      ({ id := "c", team_id := 1, hand := [] }, { rank := "9", suit := "Spades" }) ∧
    card_value "Hearts" (some "Spades") { rank := "A", suit := "Hearts" } = 15 ∧
    card_value "Hearts" (some "Spades") { rank := "10", suit := "Hearts" } = 11 ∧
    card_value "Hearts" (some "Spades") { rank := "9", suit := "Spades" } = 20 ∧
    card_value "Hearts" (some "Spades") { rank := "K", suit := "Clubs" } = 4 :=
  ⟨c1_score_trick_amended c1Board c1Game 0 c1p0 c1rest (by decide) (by decide) rfl
      (by decide) (by decide) (by decide),
    by decide, rfl, rfl, rfl, rfl⟩

/-- Outcome shape of a successful ScoreTrick execution: either the early
validation return (state untouched) or one hand point added with the phase
set to SCORE_GAME exactly when the hand total reached 5. -/
theorem ScoreTrick_execute_cases (b : Slots) (g g1 : EGame) (res : ActionResult)
    (h : ScoreTrick_execute b g = Except.ok (g1, res)) :
    g1 = g ∨
    (g1.hand_score1 + g1.hand_score2 = g.hand_score1 + g.hand_score2 + 1 ∧
      (5 ≤ g1.hand_score1 + g1.hand_score2 → g1.phase = Phase.SCORE_GAME) ∧
      (g1.hand_score1 + g1.hand_score2 < 5 → g1.phase = Phase.PLAY)) := by
  unfold ScoreTrick_execute at h
  cases hpi : players_index g.players g.current_player with
  | error e =>
    rw [hpi] at h
    cases h
  | ok si =>
    simp only [hpi] at h
    cases hg : gather_played g.players si b with
    | error r =>
      simp only [hg, Except.ok.injEq, Prod.mk.injEq] at h
      exact Or.inl h.1.symm
    | ok played =>
      simp only [hg] at h
      cases played with
      | nil => simp at h
      | cons p0 rest =>
        cases hadd : hand_score_add g
            (pyMaxBy (fun pc => card_value p0.2.suit g.trump_suit pc.2) p0 rest).1.team_id 1 with
        | error e =>
          simp only [hadd] at h
          cases h
        | ok gA =>
          simp only [hadd] at h
          unfold hand_score_add at hadd
          split_ifs at hadd with ht1 ht2
          · injection hadd with hadd1
            subst hadd1
            split_ifs at h with h5 <;>
              simp only [Except.ok.injEq, Prod.mk.injEq] at h <;>
              obtain ⟨hg1, hres⟩ := h <;> subst hg1 <;> right
            · have h5a : 5 ≤ g.hand_score1 + 1 + g.hand_score2 := h5
              exact ⟨by simp; omega, fun _ => rfl, fun hlt => by
                have : g.hand_score1 + 1 + g.hand_score2 < 5 := hlt
                omega⟩
            · have h5a : ¬ 5 ≤ g.hand_score1 + 1 + g.hand_score2 := h5
              exact ⟨by simp; omega, fun hge => by
                have : 5 ≤ g.hand_score1 + 1 + g.hand_score2 := hge
                omega, fun _ => rfl⟩
          · injection hadd with hadd1
            subst hadd1
            split_ifs at h with h5 <;>
              simp only [Except.ok.injEq, Prod.mk.injEq] at h <;>
              obtain ⟨hg1, hres⟩ := h <;> subst hg1 <;> right
            · have h5a : 5 ≤ g.hand_score1 + (g.hand_score2 + 1) := h5
              exact ⟨by simp; omega, fun _ => rfl, fun hlt => by
                have : g.hand_score1 + (g.hand_score2 + 1) < 5 := hlt
                omega⟩
            · have h5a : ¬ 5 ≤ g.hand_score1 + (g.hand_score2 + 1) := h5
              exact ⟨by simp; omega, fun hge => by
                have : 5 ≤ g.hand_score1 + (g.hand_score2 + 1) := hge
                omega, fun _ => rfl⟩

/-- Hand-score-affecting operations at the executor level, applied in the
PLAY phase of trick-taking.  A score_trick step is the circuit-completing
AdvanceTurn together with its immediate ScoreTrick follow-up (AdvanceTurn
touches neither hand scores nor the board, and ScoreTrick never reads the
phase, so the composite is applied to the PLAY state directly).  A reneg step
keeps the state mutations Reneg.execute performed even though the call ends
in an exception (the spec: fatal conditions reject only the one message, and
no rollback exists).  record_reneg is Modelled from the spec: reneg flags
(team_id, reason) are recorded during play when a team fails to follow suit;
add_reneg is declared in euchre/setup.py but its caller is absent from src. -/
inductive HandStep : EGame → EGame → Prop where
  | score_trick (g : EGame) (b : Slots) (g1 : EGame) (res : ActionResult) :
      g.phase = Phase.PLAY → ScoreTrick_execute b g = Except.ok (g1, res) → HandStep g g1
  | reneg (g : EGame) (t : Nat) (g1 : EGame) (out : Except PyError ActionResult) :
      g.phase = Phase.PLAY → (t = 1 ∨ t = 2) → Reneg_execute g t = (g1, out) → HandStep g g1
  | record_reneg (g : EGame) (t : Nat) (reason : String) :
      g.phase = Phase.PLAY →
      HandStep g { g with renegs := g.renegs ++ [(t, reason)] }

/-- Start of trick-taking for a hand: phase PLAY with fresh hand scores and
no recorded renegs. -/
def hand_start (g : EGame) : Prop :=
  g.phase = Phase.PLAY ∧ g.hand_score1 = 0 ∧ g.hand_score2 = 0 ∧ g.renegs = []

/-- States reachable during one hand by hand-score-affecting steps. -/
inductive ReachableInHand : EGame → Prop where
  | start (g : EGame) : hand_start g → ReachableInHand g
  | step (g g1 : EGame) : ReachableInHand g → HandStep g g1 → ReachableInHand g1

/-- Base state for the C7 trace: start of trick-taking. -/
def c7g0 : EGame :=
  { phase := Phase.PLAY,
    players := [{ id := "a", team_id := 1, hand := [] },
                { id := "b", team_id := 2, hand := [] },
                { id := "c", team_id := 1, hand := [] },
                { id := "d", team_id := 2, hand := [] }],
    score1 := 0, score2 := 0, hand_score1 := 0, hand_score2 := 0,
    calling_team := some 1, renegs := [], current_dealer := "d",
    current_player := "a", blocking_on_discard := [], trump_suit := some "Spades" }

/-- C7 trace, first reneg recorded against team 2. -/
def c7g1 : EGame := { c7g0 with renegs := c7g0.renegs ++ [(2, "r0")] }

/-- C7 trace, second reneg recorded against team 2. -/
def c7g2 : EGame := { c7g1 with renegs := c7g1.renegs ++ [(2, "r1")] }

/-- Board of the first trick of the C7 trace: all hearts, the leader a
playing the ace and winning. -/
def c7Board : Slots :=
  [("a", [{ rank := "A", suit := "Hearts" }]),
   ("b", [{ rank := "9", suit := "Hearts" }]),
   ("c", [{ rank := "10", suit := "Hearts" }]),
   ("d", [{ rank := "J", suit := "Hearts" }])]

/-- Result returned by scoring the first C7 trick. -/
def c7res : ActionResult :=
  { success := true, message := "wins the trick",
    follow_up_actions := [FollowUpKind.broadcast, FollowUpKind.notifyCurrentPlayer] }

/-- C7 trace after the first trick was scored: one hand point for team 1. -/
def c7g3 : EGame :=
  { c7g2 with hand_score1 := 1, phase := Phase.PLAY, current_player := "a" }

/-- C7 trace after team 1 calls a reneg: Reneg.execute adds 5 hand points to
the accusing team before raising TypeError, leaving the sum at 6. -/
def c7g4 : EGame := { c7g3 with hand_score1 := 6 }

/-- C7 counterexample: a state reachable within one hand (two renegs recorded
during play, one trick scored, then a reneg accusation adjudicated) whose
hand-score sum is 6, exceeding the claimed bound of 5 while the phase is
still PLAY — the reneg operation made the sum pass 5 without forcing any
transition out of PLAY. -/
theorem c7_hand_score_bound_counterexample :
    ReachableInHand c7g4 ∧
    c7g4.hand_score1 + c7g4.hand_score2 = 6 ∧
    ¬ (c7g4.hand_score1 + c7g4.hand_score2 ≤ 5) ∧
    c7g4.phase = Phase.PLAY := by
  refine ⟨?_, by decide, by decide, by decide⟩
  have h0 : ReachableInHand c7g0 := ReachableInHand.start c7g0 ⟨rfl, rfl, rfl, rfl⟩
  have h1 : ReachableInHand c7g1 :=
    ReachableInHand.step c7g0 c7g1 h0 (HandStep.record_reneg c7g0 2 "r0" rfl)
  have h2 : ReachableInHand c7g2 :=
    ReachableInHand.step c7g1 c7g2 h1 (HandStep.record_reneg c7g1 2 "r1" rfl)
  have h3 : ReachableInHand c7g3 :=
    ReachableInHand.step c7g2 c7g3 h2
      (HandStep.score_trick c7g2 c7Board c7g3 c7res rfl rfl)
  exact ReachableInHand.step c7g3 c7g4 h3
    (HandStep.reneg c7g3 1 c7g4
      (Except.error (PyError.typeError "ActionResult takes from 3 to 4 positional arguments but 5 were given"))
      rfl (Or.inl rfl) rfl)

/-- States reachable from the start of trick-taking by trick scoring alone. -/
inductive ReachableByTricks : EGame → Prop where
  | start (g : EGame) : hand_start g → ReachableByTricks g
  | step (g : EGame) (b : Slots) (g1 : EGame) (res : ActionResult) :
      ReachableByTricks g → g.phase = Phase.PLAY →
      ScoreTrick_execute b g = Except.ok (g1, res) → ReachableByTricks g1

/-- C7 (amended): along trick scoring alone the claimed invariant does hold —
from a hand start every state reachable by score-trick steps has hand-score
sum at most 5, and a sum of exactly 5 forces the phase out of PLAY (trick
scoring sets SCORE_GAME the moment the sum reaches 5); the reneg executor,
by contrast, adds 5 points unconditionally and breaks the bound (see the
counterexample). -/
theorem c7_trick_scoring_invariant_amended (g : EGame) (h : ReachableByTricks g) :
    g.hand_score1 + g.hand_score2 ≤ 5 ∧
    (g.hand_score1 + g.hand_score2 = 5 → g.phase ≠ Phase.PLAY) := by
  induction h with
  | start g hg =>
    obtain ⟨_, h1, h2, _⟩ := hg
    exact ⟨by omega, fun h5 => by omega⟩
  | step g b g1 res hr hphase hexec ih =>
    obtain ⟨hle, hne⟩ := ih
    rcases ScoreTrick_execute_cases b g g1 res hexec with rfl | ⟨hsum, hge, hlt⟩
    · exact ⟨hle, hne⟩
    · have hsum4 : g.hand_score1 + g.hand_score2 ≤ 4 := by
        by_cases h5 : g.hand_score1 + g.hand_score2 = 5
        · exact absurd hphase (hne h5)
        · omega
      refine ⟨by omega, ?_⟩
      intro h5
      rw [hge (by omega)]
      decide

/-- State after scoring one trick from the C7 base state. -/
def c7t1 : EGame :=
  { c7g0 with hand_score1 := 1, phase := Phase.PLAY, current_player := "a" }

/-- Witness for C7 (amended) on a concrete two-state trick trace. -/
theorem c7_trick_scoring_invariant_amended_witness :
    c7t1.hand_score1 + c7t1.hand_score2 ≤ 5 ∧
    (c7t1.hand_score1 + c7t1.hand_score2 = 5 → c7t1.phase ≠ Phase.PLAY) :=
  c7_trick_scoring_invariant_amended c7t1
    (ReachableByTricks.step c7g0 c7Board c7t1 c7res
      (ReachableByTricks.start c7g0 ⟨rfl, rfl, rfl, rfl⟩) rfl rfl)
